import Mathlib

/-!
Verification of the HTML-export backend (typst-html) against its specification.

The definitions below are a shallow embedding of:
- `src/crates/typst-library/src/html/dom.rs` (DOM model),
- `src/crates/typst-html/src/encode.rs` (serializer),
- `src/crates/typst-html/src/lib.rs` (node builder and document root resolver).

Rust strings are modelled as Lean `String` (a sequence of `Char`, matching
`str::chars` iteration); the mutable output buffer of the serializer is
threaded explicitly, and fallible functions return `Except`.
-/

set_option maxHeartbeats 1000000

namespace TypstHtml

/-- An opaque source-location token (typst's `Span`); only constructed,
compared and carried around by this core. `dom.rs` stores one per element. -/
structure Span where
  id : Nat
deriving DecidableEq, Repr

/-- The detached span, `Span::detached()` in the source. -/
def Span.detached : Span := ⟨0⟩

/-- The tag of an HTML element (`dom.rs` `HtmlTag`): an interned handle
equivalent to its string, with string equality. `as_str` is the identity
in this model. -/
abbrev HtmlTag := String

/-- Attributes of an HTML element (`dom.rs` `HtmlAttrs`): an ordered sequence
of (key, value) string pairs; duplicates are representable. -/
abbrev HtmlAttrs := List (String × String)

mutual
/-- A child of an HTML element (`dom.rs` `HtmlNode`). -/
inductive HtmlNode where
  | text (s : String) : HtmlNode
  | element (e : HtmlElement) : HtmlNode

/-- An HTML element (`dom.rs` `HtmlElement`): tag, attributes, children, span. -/
inductive HtmlElement where
  | mk (tag : HtmlTag) (attrs : HtmlAttrs) (children : List HtmlNode) (span : Span) : HtmlElement
end

/-- The `tag` field of `HtmlElement`. -/
def HtmlElement.tag : HtmlElement → HtmlTag
  | .mk t _ _ _ => t

/-- The `attrs` field of `HtmlElement`. -/
def HtmlElement.attrs : HtmlElement → HtmlAttrs
  | .mk _ a _ _ => a

/-- The `children` field of `HtmlElement`. -/
def HtmlElement.children : HtmlElement → List HtmlNode
  | .mk _ _ c _ => c

/-- The `span` field of `HtmlElement`. -/
def HtmlElement.span : HtmlElement → Span
  | .mk _ _ _ s => s

/-- `HtmlElement::new` from `dom.rs`: a blank element without attributes or
children. -/
def HtmlElement.new (tag : HtmlTag) (span : Span) : HtmlElement :=
  .mk tag [] [] span

/-- `HtmlElement::with_children` from `dom.rs`: attach children, overwriting
any previous ones. -/
def HtmlElement.with_children : HtmlElement → List HtmlNode → HtmlElement
  | .mk t a _ s, children => .mk t a children s

/-- Modelled from the spec: document metadata (`DocumentInfo`, which lives in
typst-library's model module, outside the given sources); it supplies an
optional title string and other descriptive fields. Only `title` is read by
`head_element`. -/
structure DocumentInfo where
  title : Option String
  description : Option String
deriving DecidableEq, Repr

/-- Modelled from the spec: the external query index attached to a document
(`Introspector`, outside the given sources); opaque to this core. -/
structure Introspector where
  entries : List Span
deriving DecidableEq, Repr

/-- An HTML document (`dom.rs` `HtmlDocument`). -/
structure HtmlDocument where
  root : HtmlElement
  info : DocumentInfo
  introspector : Introspector

/-! ## Serializer, from `src/crates/typst-html/src/encode.rs` -/

/-- `is_void` from `encode.rs`: whether the tag is a void tag whose element
may not have children. -/
def is_void (tag : HtmlTag) : Bool :=
  tag == "area" || tag == "base" || tag == "br" || tag == "col" || tag == "embed"
    || tag == "hr" || tag == "img" || tag == "input" || tag == "link"
    || tag == "meta" || tag == "param" || tag == "source" || tag == "track"
    || tag == "wbr"

/-- `write_text` from `encode.rs`: encode plain text into the writer buffer,
substituting the five special characters and pushing every other char as-is. -/
def write_text (w : String) (text : String) : String :=
  text.data.foldl (fun buf c =>
    if c = '<' then buf ++ "&lt;"
    else if c = '>' then buf ++ "&gt;"
    else if c = '&' then buf ++ "&amp;"
    else if c = '\'' then buf ++ "&#39;"
    else if c = '"' then buf ++ "&quot;"
    else buf.push c) w

/-- One character of Rust's `Debug` formatting for string contents, as used by
the `{value:?}` attribute interpolation in `write_element`: double quotes and
backslashes are escaped with a backslash, the common control characters get
their two-character escapes, everything else is copied verbatim. (Rust also
escapes other non-printable characters as `\u` sequences; those are abstracted
as verbatim here, and no theorem below depends on them.) -/
def escape_debug_char (c : Char) : String :=
  if c = '"' then "\\\""
  else if c = '\\' then "\\\\"
  else if c = '\n' then "\\n"
  else if c = '\r' then "\\r"
  else if c = '\t' then "\\t"
  else String.singleton c

/-- Concatenation of the images of a string-valued function over a list, in
order; the shape of every emission loop in the serializer. -/
def concat_map {α : Type} (g : α → String) : List α → String
  | [] => ""
  | x :: xs => g x ++ concat_map g xs

/-- Rust's `format!("{v:?}")` for a string `v`: the value wrapped in double
quotes with internal characters escaped per `escape_debug_char`. -/
def debug_repr (v : String) : String :=
  "\"" ++ concat_map escape_debug_char v.data ++ "\""

mutual
/-- `write_node` from `encode.rs`: encode an HTML node into the writer. -/
def write_node (w : String) : HtmlNode → String
  | .text t => write_text w t
  | .element e => write_element w e

/-- `write_element` from `encode.rs`: emit `<`, the tag, ` key="value"` for
each attribute in order, `>`; stop there for void tags; otherwise emit the
children in order and then `</`, the tag, `>`. -/
def write_element (w : String) (element : HtmlElement) : String :=
  match element with
  | .mk tag attrs children _ =>
    let w1 := (w.push '<') ++ tag
    let w2 := attrs.foldl (fun buf kv => buf ++ " " ++ kv.1 ++ "=" ++ debug_repr kv.2) w1
    let w3 := w2.push '>'
    if is_void tag then w3
    else
      let w4 := write_children w3 children
      ((w4 ++ "</") ++ tag).push '>'

/-- The `for node in &element.children` loop of `write_element`. -/
def write_children (w : String) : List HtmlNode → String
  | [] => w
  | n :: ns => write_children (write_node w n) ns
end

/-- `html` from `encode.rs`: encode an HTML document into a string, starting
from an empty buffer and writing the document's root element. -/
def html (document : HtmlDocument) : String :=
  write_element "" document.root

/-! ## Document root resolver, from `src/crates/typst-html/src/lib.rs` -/

/-- A source diagnostic: a message attributed to a span. Errors built by
`bail!` and warnings built by `warning!` both have this shape. -/
structure SourceDiagnostic where
  span : Span
  message : String
deriving DecidableEq, Repr

/-- `OutputKind` from `lib.rs`: what kind of output the user generated. -/
inductive OutputKind where
  | Html (element : HtmlElement)
  | Body (element : HtmlElement)
  | Leafs (leafs : List HtmlNode)

/-- The loop body of `classify_output`: scan the nodes in order against the
original sequence length `len`; `none` means the loop ran through without
returning. The match arms mirror the source's `match (tag, len)`: `("html", 1)`
adopts the element as the document, `("body", 1)` adopts it as the body, any
other `html`/`body` element bails with a structural-conflict error whose
message interpolates the tag via `HtmlTag`'s `Display` (which renders it in
angle brackets). -/
def classify_scan (len : Nat) : List HtmlNode → Option (Except SourceDiagnostic OutputKind)
  | [] => none
  | HtmlNode.text _ :: rest => classify_scan len rest
  | HtmlNode.element elem :: rest =>
    if elem.tag = "html" ∧ len = 1 then some (Except.ok (OutputKind.Html elem))
    else if elem.tag = "body" ∧ len = 1 then some (Except.ok (OutputKind.Body elem))
    else if elem.tag = "html" ∨ elem.tag = "body" then
      some (Except.error ⟨elem.span,
        "`<" ++ elem.tag ++ ">` element must be the only element in the document"⟩)
    else classify_scan len rest

/-- `classify_output` from `lib.rs`: determine which kind of output the user
generated. If the scan loop runs through, the untouched sequence is leaf
content. -/
def classify_output (output : List HtmlNode) : Except SourceDiagnostic OutputKind :=
  match classify_scan output.length output with
  | some r => r
  | none => Except.ok (OutputKind.Leafs output)

/-- `head_element` from `lib.rs`: generate a `<head>` element, containing a
`<title>` wrapping the document title when the metadata supplies one. -/
def head_element (info : DocumentInfo) : HtmlElement :=
  let children := match info.title with
    | some title =>
      [HtmlNode.element ((HtmlElement.new "title" Span.detached).with_children
        [HtmlNode.text title])]
    | none => []
  (HtmlElement.new "head" Span.detached).with_children children

/-- `root_element` from `lib.rs`: wrap the nodes in `<html>` and `<body>` if
they are not yet rooted, supplying a suitable `<head>`. -/
def root_element (output : List HtmlNode) (info : DocumentInfo) :
    Except SourceDiagnostic HtmlElement :=
  match classify_output output with
  | Except.error e => Except.error e
  | Except.ok (OutputKind.Html element) => Except.ok element
  | Except.ok (OutputKind.Body body) =>
    Except.ok ((HtmlElement.new "html" Span.detached).with_children
      [HtmlNode.element (head_element info), HtmlNode.element body])
  | Except.ok (OutputKind.Leafs leafs) =>
    Except.ok ((HtmlElement.new "html" Span.detached).with_children
      [HtmlNode.element (head_element info),
       HtmlNode.element ((HtmlElement.new "body" Span.detached).with_children leafs)])

/-! ## Node builder, from `src/crates/typst-html/src/lib.rs` -/

/-- Modelled from the spec: an opaque style snapshot (`StyleChain`, outside the
given sources); the dispatch arms only pass it through to resolve fields,
which this model carries pre-resolved on the content constructors. -/
structure StyleChain where
  id : Nat
deriving DecidableEq, Repr

/-- Modelled from the spec: the closed set of content kinds dispatched by
`handle`. `HtmlElem` is defined in `src/crates/typst-library/src/html/mod.rs`
(tag, attrs, optional body) and `htmlElem` matches it field-for-field; the
remaining element types `TagElem`, `ParElem`, `SpaceElem`, `TextElem`,
`LinebreakElem`, `SmartQuoteElem` live outside the given sources. Each
constructor carries the style-resolved fields the corresponding dispatch arm
reads, plus the content's span; `other` stands for every content kind outside
the closed dispatch set, carrying its element name. -/
inductive Content where
  | tagElem (span : Span)
  | htmlElem (tag : HtmlTag) (attrs : HtmlAttrs) (body : Option Content) (span : Span)
  | parElem (children : List (Content × StyleChain)) (span : Span)
  | spaceElem (span : Span)
  | textElem (text : String) (span : Span)
  | linebreakElem (span : Span)
  | smartQuoteElem (double : Bool) (span : Span)
  | other (name : String) (span : Span)

/-- The recursive fragment realization invoked by `handle` for the body of an
explicit HTML element (`html_fragment` in the source, whose realize step is
external): given the body content and styles it yields the produced nodes and
the warnings it sank, or a fatal error. -/
abbrev FragmentRealizer :=
  Content → StyleChain → Except SourceDiagnostic (List HtmlNode × List SourceDiagnostic)

mutual
/-- `handle` from `lib.rs`: convert a child into HTML node(s). The mutable
`output` vector and the diagnostic sink are threaded as the returned pair
(nodes appended, warnings emitted). -/
def handle (frag : FragmentRealizer) (child : Content) (styles : StyleChain) :
    Except SourceDiagnostic (List HtmlNode × List SourceDiagnostic) :=
  match child with
  | .tagElem _ => Except.ok ([], [])
  | .htmlElem tag attrs body span =>
    match body with
    | some b =>
      match frag b styles with
      | Except.error e => Except.error e
      | Except.ok (children, warns) =>
        Except.ok ([HtmlNode.element (HtmlElement.mk tag attrs children span)], warns)
    | none => Except.ok ([HtmlNode.element (HtmlElement.mk tag attrs [] span)], [])
  | .parElem children span =>
    match handle_list frag children with
    | Except.error e => Except.error e
    | Except.ok (nodes, warns) =>
      Except.ok ([HtmlNode.element ((HtmlElement.new "p" span).with_children nodes)], warns)
  | .spaceElem _ => Except.ok ([HtmlNode.text " "], [])
  | .textElem t _ => Except.ok ([HtmlNode.text t], [])
  | .linebreakElem span => Except.ok ([HtmlNode.element (HtmlElement.new "br" span)], [])
  | .smartQuoteElem double _ => Except.ok ([HtmlNode.text (if double then "\"" else "'")], [])
  | .other name span =>
    Except.ok ([], [⟨span, name ++ " was ignored during HTML export"⟩])

/-- `handle_list` from `lib.rs`: convert children into HTML nodes, in order,
concatenating outputs and warnings. -/
def handle_list (frag : FragmentRealizer) :
    List (Content × StyleChain) → Except SourceDiagnostic (List HtmlNode × List SourceDiagnostic)
  | [] => Except.ok ([], [])
  | (c, styles) :: rest =>
    match handle frag c styles with
    | Except.error e => Except.error e
    | Except.ok (nodes, warns) =>
      match handle_list frag rest with
      | Except.error e => Except.error e
      | Except.ok (nodes2, warns2) => Except.ok (nodes ++ nodes2, warns ++ warns2)
end

/-! ## Fragment depth check, from `html_fragment_impl` in `lib.rs` -/

/-- Modelled from the spec: the depth check performed by `html_fragment_impl`
before realizing (`Route::check_html_depth` lives outside the given sources).
Fragment realization tracks nesting depth against a fixed maximum `maxDepth`;
a depth beyond it fails with `RecursionLimitExceeded` attributed to the
triggering content's span (the spec names the error kind, not its text, so the
kind's name stands in for the message), before any realization runs; within
the maximum, realization proceeds. -/
def html_fragment_model (maxDepth : Nat)
    (realize : Unit → Except SourceDiagnostic (List HtmlNode))
    (depth : Nat) (contentSpan : Span) : Except SourceDiagnostic (List HtmlNode) :=
  if maxDepth < depth then
    Except.error ⟨contentSpan, "RecursionLimitExceeded"⟩
  else realize ()

/-! ## Lemmas about the emission helpers -/

/-- Pushing a character appends the singleton string. -/
theorem push_eq_append_singleton (s : String) (c : Char) :
    s.push c = s ++ String.singleton c := by
  apply String.ext
  simp [String.data_push, String.data_append]

/-- `concat_map` distributes over list append. -/
theorem concat_map_append {α : Type} (g : α → String) (l1 l2 : List α) :
    concat_map g (l1 ++ l2) = concat_map g l1 ++ concat_map g l2 := by
  induction l1 with
  | nil => simp [concat_map]
  | cons x xs ih => simp [concat_map, ih, String.append_assoc]

/-- A left fold that only appends to its accumulator appends the concatenation
of the per-item strings. -/
theorem foldl_append_concat_map {α : Type} (g : α → String) (l : List α) :
    ∀ w : String, l.foldl (fun buf x => buf ++ g x) w = w ++ concat_map g l := by
  induction l with
  | nil => intro w; simp [concat_map]
  | cons x xs ih =>
    intro w
    simp only [List.foldl_cons, concat_map]
    rw [ih, String.append_assoc]

/-- The per-character substitution performed by `write_text`. -/
def escape_char (c : Char) : String :=
  if c = '<' then "&lt;"
  else if c = '>' then "&gt;"
  else if c = '&' then "&amp;"
  else if c = '\'' then "&#39;"
  else if c = '"' then "&quot;"
  else String.singleton c

/-- `write_text` appends the per-character substitutions of the text, in
order, to the buffer. -/
theorem write_text_eq (w text : String) :
    write_text w text = w ++ concat_map escape_char text.data := by
  have hfun : (fun (buf : String) (c : Char) =>
        if c = '<' then buf ++ "&lt;"
        else if c = '>' then buf ++ "&gt;"
        else if c = '&' then buf ++ "&amp;"
        else if c = '\'' then buf ++ "&#39;"
        else if c = '"' then buf ++ "&quot;"
        else buf.push c)
      = fun (buf : String) (c : Char) => buf ++ escape_char c := by
    funext buf c
    simp only [escape_char]
    split_ifs <;> simp [push_eq_append_singleton]
  unfold write_text
  rw [hfun, foldl_append_concat_map]

/-- The five characters `write_text` substitutes. -/
def substituted_chars : List Char := ['<', '>', '&', '\'', '"']

/-- Every per-character substitution emits at least one character. -/
theorem escape_char_length_pos (c : Char) : 1 ≤ (escape_char c).data.length := by
  unfold escape_char
  split_ifs <;> simp

/-- A substituted character's replacement has at least two characters. -/
theorem escape_char_length_two (c : Char) (h : c ∈ substituted_chars) :
    2 ≤ (escape_char c).data.length := by
  simp only [substituted_chars, List.mem_cons, List.not_mem_nil, or_false] at h
  rcases h with h | h | h | h | h <;> subst h <;> decide

/-- Every substituted character's replacement contains an ampersand. -/
theorem amp_mem_escape_char (c : Char) (h : c ∈ substituted_chars) :
    '&' ∈ (escape_char c).data := by
  simp only [substituted_chars, List.mem_cons, List.not_mem_nil, or_false] at h
  rcases h with h | h | h | h | h <;> subst h <;> decide

/-- An unsubstituted character is copied verbatim. -/
theorem escape_char_of_not_mem (c : Char) (h : c ∉ substituted_chars) :
    escape_char c = String.singleton c := by
  simp only [substituted_chars, List.mem_cons, List.not_mem_nil, or_false, not_or] at h
  obtain ⟨h1, h2, h3, h4, h5⟩ := h
  simp [escape_char, h1, h2, h3, h4, h5]

/-- The escaped text is at least as long as the input. -/
theorem concat_map_escape_length (l : List Char) :
    l.length ≤ (concat_map escape_char l).data.length := by
  induction l with
  | nil => simp [concat_map]
  | cons c cs ih =>
    have := escape_char_length_pos c
    simp only [concat_map, String.data_append, List.length_append, List.length_cons]
    omega

/-- The escaped text is strictly longer than an input that contains a
substituted character. -/
theorem concat_map_escape_length_lt (l : List Char)
    (h : ∃ c ∈ l, c ∈ substituted_chars) :
    l.length < (concat_map escape_char l).data.length := by
  induction l with
  | nil => simp at h
  | cons c cs ih =>
    simp only [concat_map, String.data_append, List.length_append, List.length_cons]
    obtain ⟨c0, hc0, hspec⟩ := h
    rcases List.mem_cons.mp hc0 with rfl | hmem
    · have h2 := escape_char_length_two c0 hspec
      have h3 := concat_map_escape_length cs
      omega
    · have h1 := escape_char_length_pos c
      have h2 := ih ⟨c0, hmem, hspec⟩
      omega

/-- Every character of a member's replacement appears in the escaped text. -/
theorem mem_concat_map_escape (l : List Char) (c : Char) (hc : c ∈ l)
    (x : Char) (hx : x ∈ (escape_char c).data) :
    x ∈ (concat_map escape_char l).data := by
  induction l with
  | nil => simp at hc
  | cons d ds ih =>
    simp only [concat_map, String.data_append, List.mem_append]
    rcases List.mem_cons.mp hc with rfl | hmem
    · exact Or.inl hx
    · exact Or.inr (ih hmem)

/-- C2: `write_text` substitutes exactly the five characters `<`, `>`, `&`,
`'`, `"` by `&lt;`, `&gt;`, `&amp;`, `&#39;`, `&quot;` respectively, copies
every other character verbatim, preserves the original character order (it is
an append-homomorphism applied character by character), and only ever appends
to the writer's buffer. -/
theorem write_text_spec :
    (∀ c : Char, c ∉ ['<', '>', '&', '\'', '"'] →
      write_text "" (String.singleton c) = String.singleton c) ∧
    write_text "" "<" = "&lt;" ∧
    write_text "" ">" = "&gt;" ∧
    write_text "" "&" = "&amp;" ∧
    write_text "" "'" = "&#39;" ∧
    write_text "" "\"" = "&quot;" ∧
    (∀ s t : String, write_text "" (s ++ t) = write_text "" s ++ write_text "" t) ∧
    (∀ w t : String, write_text w t = w ++ write_text "" t) := by
  refine ⟨?_, by decide, by decide, by decide, by decide, by decide, ?_, ?_⟩
  · intro c h
    rw [write_text_eq, String.empty_append]
    show escape_char c ++ concat_map escape_char [] = String.singleton c
    rw [show concat_map escape_char [] = "" from rfl, String.append_empty]
    exact escape_char_of_not_mem c h
  · intro s t
    rw [write_text_eq, write_text_eq, write_text_eq, String.data_append,
      concat_map_append]
    simp [String.empty_append]
  · intro w t
    rw [write_text_eq, write_text_eq, String.empty_append]

/-- Witness for C2: a character outside the substituted set is copied
verbatim. -/
theorem write_text_spec_witness :
    write_text "" (String.singleton 'a') = String.singleton 'a' :=
  write_text_spec.1 'a' (by decide)

/-- C9: the text-escaping step is not idempotent: on any string containing at
least one of the five substituted characters, escaping the already-escaped
text changes it again (the `&` introduced by the first pass gets escaped). -/
theorem write_text_not_idempotent (s : String)
    (h : ∃ c ∈ s.data, c ∈ ['<', '>', '&', '\'', '"']) :
    write_text "" (write_text "" s) ≠ write_text "" s := by
  intro heq
  obtain ⟨c, hc, hspec⟩ := h
  have hamp : '&' ∈ (write_text "" s).data := by
    rw [write_text_eq, String.empty_append]
    exact mem_concat_map_escape s.data c hc '&'
      (amp_mem_escape_char c hspec)
  have hlt : (write_text "" s).data.length <
      (write_text "" (write_text "" s)).data.length := by
    rw [write_text_eq "" (write_text "" s), String.empty_append]
    exact concat_map_escape_length_lt (write_text "" s).data
      ⟨'&', hamp, by decide⟩
  rw [heq] at hlt
  exact lt_irrefl _ hlt

/-- Witness for C9: escaping `"&"` yields `"&amp;"`, and escaping that again
yields `"&amp;amp;"`, a different string. -/
theorem write_text_not_idempotent_witness :
    write_text "" (write_text "" "&") ≠ write_text "" "&" :=
  write_text_not_idempotent "&" (by decide)

/-! ## Serializer decomposition -/

/-- The text appended by `write_element` for one attribute:
a space, the key, `=`, and the debug-quoted value. -/
def attr_text (kv : String × String) : String :=
  " " ++ kv.1 ++ "=" ++ debug_repr kv.2

/-- The whole attribute region emitted by `write_element`, in insertion
order. -/
def write_attrs (attrs : HtmlAttrs) : String :=
  concat_map attr_text attrs

/-- The attribute loop of `write_element` appends `write_attrs`. -/
theorem attrs_foldl_eq (attrs : HtmlAttrs) (w : String) :
    attrs.foldl (fun buf kv => buf ++ " " ++ kv.1 ++ "=" ++ debug_repr kv.2) w
      = w ++ write_attrs attrs := by
  have hfun : (fun (buf : String) (kv : String × String) =>
        buf ++ " " ++ kv.1 ++ "=" ++ debug_repr kv.2)
      = fun (buf : String) (kv : String × String) => buf ++ attr_text kv := by
    funext buf kv
    simp [attr_text, String.append_assoc]
  rw [hfun]
  exact foldl_append_concat_map attr_text attrs w

/-- The singleton of `<` is the literal. -/
theorem singleton_lt_char : String.singleton '<' = "<" := rfl

/-- The singleton of `>` is the literal. -/
theorem singleton_gt_char : String.singleton '>' = ">" := rfl

/-- The child loop only appends, provided each member's serialization only
appends. -/
theorem write_children_shift_of : ∀ (children : List HtmlNode),
    (∀ n ∈ children, ∀ w, write_node w n = w ++ write_node "" n) →
    ∀ w, write_children w children = w ++ write_children "" children
  | [], _, w => by
    show w = w ++ ""
    rw [String.append_empty]
  | n :: ns, h, w => by
    have hns : ∀ m ∈ ns, ∀ w', write_node w' m = w' ++ write_node "" m :=
      fun m hm => h m (List.mem_cons_of_mem n hm)
    show write_children (write_node w n) ns = w ++ write_children (write_node "" n) ns
    rw [write_children_shift_of ns hns (write_node w n),
      write_children_shift_of ns hns (write_node "" n),
      h n (List.mem_cons_self n ns) w, String.append_assoc]

/-- Decomposition of `write_element`, provided each child's serialization only
appends: the output is the buffer, the open tag with its attributes, and —
except for void tags — the serialized children followed by the closing tag. -/
theorem write_element_eq_of (w : String) (tag : HtmlTag) (attrs : HtmlAttrs)
    (children : List HtmlNode) (span : Span)
    (h : ∀ n ∈ children, ∀ w', write_node w' n = w' ++ write_node "" n) :
    write_element w (HtmlElement.mk tag attrs children span) =
      w ++ "<" ++ tag ++ write_attrs attrs ++ ">" ++
        (if is_void tag then ""
         else write_children "" children ++ ("</" ++ tag ++ ">")) := by
  show (if is_void tag then
        ((attrs.foldl (fun buf kv => buf ++ " " ++ kv.1 ++ "=" ++ debug_repr kv.2)
          ((w.push '<') ++ tag)).push '>')
      else
        ((write_children
            ((attrs.foldl (fun buf kv => buf ++ " " ++ kv.1 ++ "=" ++ debug_repr kv.2)
              ((w.push '<') ++ tag)).push '>') children ++ "</") ++ tag).push '>') = _
  rw [attrs_foldl_eq]
  by_cases hv : is_void tag
  · simp only [hv, if_true, if_pos]
    rw [push_eq_append_singleton, push_eq_append_singleton, singleton_lt_char,
      singleton_gt_char, String.append_empty]
  · simp only [hv, if_false, if_neg, Bool.false_eq_true, not_false_iff]
    rw [write_children_shift_of children h, push_eq_append_singleton,
      push_eq_append_singleton, push_eq_append_singleton, singleton_lt_char,
      singleton_gt_char]
    simp [String.append_assoc]

/-- The serialization of any node only appends to the buffer (proved by strong
induction on the node's size). -/
theorem write_node_shift_aux (k : Nat) : ∀ (n : HtmlNode), sizeOf n ≤ k →
    ∀ w, write_node w n = w ++ write_node "" n := by
  induction k using Nat.strong_induction_on with
  | _ k ih =>
    intro n hle w
    cases n with
    | text t =>
      show write_text w t = w ++ write_text "" t
      rw [write_text_eq, write_text_eq, String.empty_append]
    | element e =>
      cases e with
      | mk tag attrs children span =>
        have hchild : ∀ m ∈ children, ∀ w', write_node w' m = w' ++ write_node "" m := by
          intro m hm w'
          have h1 : sizeOf m < sizeOf children := List.sizeOf_lt_of_mem hm
          have h2 : sizeOf children <
              sizeOf (HtmlNode.element (HtmlElement.mk tag attrs children span)) := by
            simp only [HtmlNode.element.sizeOf_spec, HtmlElement.mk.sizeOf_spec]
            omega
          exact ih (sizeOf m) (by omega) m le_rfl w'
        show write_element w (HtmlElement.mk tag attrs children span)
          = w ++ write_element "" (HtmlElement.mk tag attrs children span)
        rw [write_element_eq_of w tag attrs children span hchild,
          write_element_eq_of "" tag attrs children span hchild]
        simp [String.empty_append, String.append_assoc]

/-- The serialization of any node only appends to the buffer. -/
theorem write_node_shift (n : HtmlNode) (w : String) :
    write_node w n = w ++ write_node "" n :=
  write_node_shift_aux (sizeOf n) n le_rfl w

/-- The child loop only appends to the buffer. -/
theorem write_children_shift (children : List HtmlNode) (w : String) :
    write_children w children = w ++ write_children "" children :=
  write_children_shift_of children (fun n _ w' => write_node_shift n w') w

/-- Unconditional decomposition of `write_element`. -/
theorem write_element_decomp (w : String) (tag : HtmlTag) (attrs : HtmlAttrs)
    (children : List HtmlNode) (span : Span) :
    write_element w (HtmlElement.mk tag attrs children span) =
      w ++ "<" ++ tag ++ write_attrs attrs ++ ">" ++
        (if is_void tag then ""
         else write_children "" children ++ ("</" ++ tag ++ ">")) :=
  write_element_eq_of w tag attrs children span (fun n _ w' => write_node_shift n w')

/-- The child loop emits the concatenation of the children's serializations,
in order. -/
theorem write_children_concat (children : List HtmlNode) :
    write_children "" children = concat_map (fun n => write_node "" n) children := by
  induction children with
  | nil => rfl
  | cons n ns ih =>
    show write_children (write_node "" n) ns = _
    rw [write_children_shift ns (write_node "" n), ih]
    rfl

/-- C1: for every `HtmlElement`, `write_element` emits `<`, the tag, the
attributes, and `>`; if the tag is in the fixed void set it emits nothing
further — no children and no closing tag, even when the children sequence is
non-empty; for every non-void tag it emits the serializations of all children
in order followed by exactly one `</` ++ tag ++ `>`, so the output of every
DOM tree is well-nested. The second conjunct pins `is_void` to exactly that
fixed fourteen-tag set. -/
theorem write_element_spec (w : String) (tag : HtmlTag) (attrs : HtmlAttrs)
    (children : List HtmlNode) (span : Span) :
    write_element w (HtmlElement.mk tag attrs children span) =
      w ++ "<" ++ tag ++ write_attrs attrs ++ ">" ++
        (if tag ∈ ["area", "base", "br", "col", "embed", "hr", "img", "input",
                   "link", "meta", "param", "source", "track", "wbr"] then ""
         else concat_map (fun n => write_node "" n) children ++ ("</" ++ tag ++ ">")) ∧
    (is_void tag = true ↔
      tag ∈ ["area", "base", "br", "col", "embed", "hr", "img", "input",
             "link", "meta", "param", "source", "track", "wbr"]) := by
  have hiff : is_void tag = true ↔
      tag ∈ ["area", "base", "br", "col", "embed", "hr", "img", "input",
             "link", "meta", "param", "source", "track", "wbr"] := by
    simp only [is_void, Bool.or_eq_true, beq_iff_eq, List.mem_cons,
      List.not_mem_nil, or_false]
    tauto
  refine ⟨?_, hiff⟩
  rw [write_element_decomp, write_children_concat]
  by_cases hv : is_void tag = true
  · rw [if_pos hv, if_pos (hiff.mp hv)]
  · rw [if_neg hv, if_neg (fun hm => hv (hiff.mpr hm))]

/-- A character in printable ASCII that is neither a double quote nor a
backslash is left unescaped by the debug-quoting convention. -/
theorem escape_debug_char_of_plain (c : Char) (h1 : 32 ≤ c.toNat)
    (h2 : c.toNat ≤ 126) (h3 : c ≠ '"') (h4 : c ≠ '\\') :
    escape_debug_char c = String.singleton c := by
  have hn : c ≠ '\n' := by
    intro h
    subst h
    exact absurd h1 (by decide)
  have hr : c ≠ '\r' := by
    intro h
    subst h
    exact absurd h1 (by decide)
  have ht : c ≠ '\t' := by
    intro h
    subst h
    exact absurd h1 (by decide)
  simp [escape_debug_char, h3, h4, hn, hr, ht]

/-- Debug-escaping copies a list of plain characters verbatim. -/
theorem concat_map_escape_debug_of_plain (l : List Char)
    (h : ∀ c ∈ l, 32 ≤ c.toNat ∧ c.toNat ≤ 126 ∧ c ≠ '"' ∧ c ≠ '\\') :
    concat_map escape_debug_char l = String.mk l := by
  induction l with
  | nil => rfl
  | cons c cs ih =>
    obtain ⟨p1, p2, p3, p4⟩ := h c (List.mem_cons_self c cs)
    rw [concat_map, escape_debug_char_of_plain c p1 p2 p3 p4,
      ih (fun d hd => h d (List.mem_cons_of_mem c hd))]
    apply String.ext
    simp [String.data_append]

/-- The debug representation of a plain string is the string wrapped in double
quotes. -/
theorem debug_repr_plain (v : String)
    (h : ∀ c ∈ v.data, 32 ≤ c.toNat ∧ c.toNat ≤ 126 ∧ c ≠ '"' ∧ c ≠ '\\') :
    debug_repr v = "\"" ++ v ++ "\"" := by
  unfold debug_repr
  rw [concat_map_escape_debug_of_plain v.data h]

/-- C6: the serializer emits the attributes in insertion order — the attribute
region is an append-homomorphism of the attribute list, so duplicate keys are
kept, nothing is rejected or deduplicated — each attribute as a space, the
key, `=`, and the debug-quoted value; for a value containing only characters
the debug convention leaves unescaped, the emitted text is exactly
a space, the key, `=`, and the value wrapped in double quotes; and
`write_element` emits exactly that region between the tag and `>`. -/
theorem write_attrs_spec (a b : HtmlAttrs) (k v : String)
    (hv : ∀ c ∈ v.data, 32 ≤ c.toNat ∧ c.toNat ≤ 126 ∧ c ≠ '"' ∧ c ≠ '\\') :
    write_attrs (a ++ b) = write_attrs a ++ write_attrs b ∧
    write_attrs [(k, v)] = " " ++ k ++ "=" ++ "\"" ++ v ++ "\"" ∧
    (∀ (w : String) (tag : HtmlTag) (children : List HtmlNode) (span : Span),
      write_element w (HtmlElement.mk tag a children span) =
        w ++ "<" ++ tag ++ write_attrs a ++ ">" ++
          (if is_void tag then ""
           else write_children "" children ++ ("</" ++ tag ++ ">"))) := by
  refine ⟨concat_map_append attr_text a b, ?_, ?_⟩
  · show attr_text (k, v) ++ concat_map attr_text [] = _
    rw [show concat_map attr_text [] = "" from rfl, String.append_empty]
    show " " ++ k ++ "=" ++ debug_repr v = _
    rw [debug_repr_plain v hv]
    apply String.ext
    simp [String.data_append]
  · intro w tag children span
    exact write_element_decomp w tag a children span

/-- Witness for C6: a plain attribute value is emitted verbatim between double
quotes, after the space, the key and the equals sign. -/
theorem write_attrs_spec_witness :
    write_attrs [("class", "note")] = " " ++ "class" ++ "=" ++ "\"" ++ "note" ++ "\"" :=
  (write_attrs_spec [] [] "class" "note" (by decide)).2.1

/-- C10: the document serializer depends only on the document's root element;
documents with structurally equal roots serialize identically regardless of
their metadata and introspector fields. -/
theorem html_depends_only_on_root (d1 d2 : HtmlDocument) (h : d1.root = d2.root) :
    html d1 = html d2 := by
  unfold html
  rw [h]

/-- Witness for C10: two documents with the same root but different metadata
and introspectors serialize identically. -/
theorem html_depends_only_on_root_witness :
    html ⟨HtmlElement.mk "html" [] [] ⟨0⟩, ⟨some "Report", none⟩, ⟨[⟨1⟩]⟩⟩
      = html ⟨HtmlElement.mk "html" [] [] ⟨0⟩, ⟨none, some "other"⟩, ⟨[]⟩⟩ :=
  html_depends_only_on_root _ _ rfl

/-! ## Root classification -/

/-- If no top-level element is tagged `html` or `body`, the classifying scan
runs through without returning. -/
theorem classify_scan_none (len : Nat) : ∀ (l : List HtmlNode),
    (∀ e, HtmlNode.element e ∈ l → e.tag ≠ "html" ∧ e.tag ≠ "body") →
    classify_scan len l = none
  | [], _ => rfl
  | HtmlNode.text _ :: rest, h => by
    show classify_scan len rest = none
    exact classify_scan_none len rest (fun e he => h e (List.mem_cons_of_mem _ he))
  | HtmlNode.element elem :: rest, h => by
    obtain ⟨h1, h2⟩ := h elem (List.mem_cons_self _ _)
    show (if elem.tag = "html" ∧ len = 1 then some (Except.ok (OutputKind.Html elem))
      else if elem.tag = "body" ∧ len = 1 then some (Except.ok (OutputKind.Body elem))
      else if elem.tag = "html" ∨ elem.tag = "body" then
        some (Except.error ⟨elem.span,
          "`<" ++ elem.tag ++ ">` element must be the only element in the document"⟩)
      else classify_scan len rest) = none
    rw [if_neg (fun hc => h1 hc.1), if_neg (fun hc => h2 hc.1),
      if_neg (fun hc => hc.elim h1 h2)]
    exact classify_scan_none len rest (fun e he => h e (List.mem_cons_of_mem _ he))

/-- When the original length is not one and some node is an element tagged
`html` or `body`, the scan bails with a structural-conflict error carrying
such an element's span and tag. -/
theorem classify_scan_error (len : Nat) (hlen : len ≠ 1) : ∀ (l : List HtmlNode),
    (∃ e, HtmlNode.element e ∈ l ∧ (e.tag = "html" ∨ e.tag = "body")) →
    ∃ e, HtmlNode.element e ∈ l ∧ (e.tag = "html" ∨ e.tag = "body") ∧
      classify_scan len l = some (Except.error ⟨e.span,
        "`<" ++ e.tag ++ ">` element must be the only element in the document"⟩)
  | [], h => by
    obtain ⟨e, he, _⟩ := h
    exact absurd he (List.not_mem_nil _)
  | HtmlNode.text t :: rest, h => by
    obtain ⟨e, he, htag⟩ := h
    have hrest : HtmlNode.element e ∈ rest := by
      rcases List.mem_cons.mp he with heq | hm
      · exact absurd heq (by intro hx; cases hx)
      · exact hm
    obtain ⟨e', hm', ht', hs'⟩ := classify_scan_error len hlen rest ⟨e, hrest, htag⟩
    refine ⟨e', List.mem_cons_of_mem _ hm', ht', ?_⟩
    show classify_scan len rest = _
    exact hs'
  | HtmlNode.element elem :: rest, h => by
    by_cases hel : elem.tag = "html" ∨ elem.tag = "body"
    · refine ⟨elem, List.mem_cons_self _ _, hel, ?_⟩
      show (if elem.tag = "html" ∧ len = 1 then some (Except.ok (OutputKind.Html elem))
        else if elem.tag = "body" ∧ len = 1 then some (Except.ok (OutputKind.Body elem))
        else if elem.tag = "html" ∨ elem.tag = "body" then
          some (Except.error ⟨elem.span,
            "`<" ++ elem.tag ++ ">` element must be the only element in the document"⟩)
        else classify_scan len rest) = _
      rw [if_neg (fun hc => hlen hc.2), if_neg (fun hc => hlen hc.2), if_pos hel]
    · push_neg at hel
      obtain ⟨hh, hb⟩ := hel
      obtain ⟨e, he, htag⟩ := h
      have hrest : HtmlNode.element e ∈ rest := by
        rcases List.mem_cons.mp he with heq | hm
        · cases heq
          exact absurd htag (by rw [not_or]; exact ⟨hh, hb⟩)
        · exact hm
      obtain ⟨e', hm', ht', hs'⟩ := classify_scan_error len hlen rest ⟨e, hrest, htag⟩
      refine ⟨e', List.mem_cons_of_mem _ hm', ht', ?_⟩
      show (if elem.tag = "html" ∧ len = 1 then some (Except.ok (OutputKind.Html elem))
        else if elem.tag = "body" ∧ len = 1 then some (Except.ok (OutputKind.Body elem))
        else if elem.tag = "html" ∨ elem.tag = "body" then
          some (Except.error ⟨elem.span,
            "`<" ++ elem.tag ++ ">` element must be the only element in the document"⟩)
        else classify_scan len rest) = _
      rw [if_neg (fun hc => hh hc.1), if_neg (fun hc => hb hc.1),
        if_neg (fun hc => hc.elim hh hb)]
      exact hs'

/-- C3: a top-level sequence of more than one node in which some node is an
element tagged `html` or `body` makes classification fail with a
structural-conflict error whose message interpolates the offending tag and
which carries that element's span; `root_element` propagates the error, so no
document is produced. -/
theorem classify_output_conflict (output : List HtmlNode) (info : DocumentInfo)
    (hlen : 1 < output.length)
    (h : ∃ e, HtmlNode.element e ∈ output ∧ (e.tag = "html" ∨ e.tag = "body")) :
    ∃ e, HtmlNode.element e ∈ output ∧ (e.tag = "html" ∨ e.tag = "body") ∧
      classify_output output = Except.error ⟨e.span,
        "`<" ++ e.tag ++ ">` element must be the only element in the document"⟩ ∧
      root_element output info = Except.error ⟨e.span,
        "`<" ++ e.tag ++ ">` element must be the only element in the document"⟩ := by
  obtain ⟨e, hmem, htag, hscan⟩ :=
    classify_scan_error output.length (by omega) output h
  have hco : classify_output output = Except.error ⟨e.span,
      "`<" ++ e.tag ++ ">` element must be the only element in the document"⟩ := by
    unfold classify_output
    rw [hscan]
  refine ⟨e, hmem, htag, hco, ?_⟩
  unfold root_element
  rw [hco]

/-- Witness for C3: a `body` element next to a stray text node is rejected
with the structural-conflict message carrying the element's span. -/
theorem classify_output_conflict_witness :
    ∃ e, HtmlNode.element e ∈
        [HtmlNode.element (HtmlElement.mk "body" [] [] ⟨5⟩), HtmlNode.text "x"] ∧
      (e.tag = "html" ∨ e.tag = "body") ∧
      classify_output
          [HtmlNode.element (HtmlElement.mk "body" [] [] ⟨5⟩), HtmlNode.text "x"]
        = Except.error ⟨e.span,
          "`<" ++ e.tag ++ ">` element must be the only element in the document"⟩ ∧
      root_element
          [HtmlNode.element (HtmlElement.mk "body" [] [] ⟨5⟩), HtmlNode.text "x"]
          ⟨none, none⟩
        = Except.error ⟨e.span,
          "`<" ++ e.tag ++ ">` element must be the only element in the document"⟩ :=
  classify_output_conflict
    [HtmlNode.element (HtmlElement.mk "body" [] [] ⟨5⟩), HtmlNode.text "x"]
    ⟨none, none⟩ (by decide)
    ⟨HtmlElement.mk "body" [] [] ⟨5⟩, List.mem_cons_self _ _, Or.inr rfl⟩

/-- A sequence without `html`/`body` elements classifies as leaf content. -/
theorem classify_output_leafs (output : List HtmlNode)
    (h : ∀ e, HtmlNode.element e ∈ output → e.tag ≠ "html" ∧ e.tag ≠ "body") :
    classify_output output = Except.ok (OutputKind.Leafs output) := by
  unfold classify_output
  rw [classify_scan_none output.length output h]

/-- A single `body`-tagged element classifies as the body. -/
theorem classify_output_single_body (e : HtmlElement) (h : e.tag = "body") :
    classify_output [HtmlNode.element e] = Except.ok (OutputKind.Body e) := by
  simp [classify_output, classify_scan, h]

/-- The synthesized head: a `title` element wrapping the title text when the
metadata supplies one, nothing otherwise. -/
theorem head_element_eq (info : DocumentInfo) :
    head_element info = HtmlElement.mk "head" []
      (match info.title with
       | some t => [HtmlNode.element
           (HtmlElement.mk "title" [] [HtmlNode.text t] Span.detached)]
       | none => []) Span.detached := by
  unfold head_element
  cases info.title <;> rfl

/-- C4: a top-level sequence that is not a single `html` element and contains
no disqualifying `html`/`body` element resolves to an `html` element whose
children are exactly the synthesized head followed by a body. The two
conjuncts pin the body per input case: when the sequence is exactly one
`body`-tagged element, the body slot holds that supplied element itself
(adoption, not re-wrapping); when no top-level element is tagged `html` or
`body` (including the empty sequence), the body is a synthesized `body`
element whose children equal the input sequence in order. In both cases the
head contains a `title` element wrapping the document title text when the
metadata supplies one, and nothing otherwise. -/
theorem root_element_spec (output : List HtmlNode) (info : DocumentInfo) :
    (∀ e : HtmlElement, output = [HtmlNode.element e] → e.tag = "body" →
      root_element output info = Except.ok (HtmlElement.mk "html" []
        [HtmlNode.element (HtmlElement.mk "head" []
            (match info.title with
             | some t => [HtmlNode.element
                 (HtmlElement.mk "title" [] [HtmlNode.text t] Span.detached)]
             | none => []) Span.detached),
         HtmlNode.element e] Span.detached)) ∧
    ((∀ e, HtmlNode.element e ∈ output → e.tag ≠ "html" ∧ e.tag ≠ "body") →
      root_element output info = Except.ok (HtmlElement.mk "html" []
        [HtmlNode.element (HtmlElement.mk "head" []
            (match info.title with
             | some t => [HtmlNode.element
                 (HtmlElement.mk "title" [] [HtmlNode.text t] Span.detached)]
             | none => []) Span.detached),
         HtmlNode.element (HtmlElement.mk "body" [] output Span.detached)]
        Span.detached)) := by
  constructor
  · intro e heq htag
    subst heq
    unfold root_element
    rw [classify_output_single_body e htag, ← head_element_eq]
    rfl
  · intro hno
    unfold root_element
    rw [classify_output_leafs output hno, ← head_element_eq]
    rfl

/-- Witness for C4: a single supplied `body` element is adopted as the body
slot itself, and the empty sequence with a supplied title resolves to
`html > (head > title, body)` with an empty synthesized body. -/
theorem root_element_spec_witness :
    root_element [HtmlNode.element (HtmlElement.mk "body" [] [HtmlNode.text "Hello"] ⟨9⟩)]
        ⟨some "Report", none⟩
      = Except.ok (HtmlElement.mk "html" []
        [HtmlNode.element (HtmlElement.mk "head" []
            [HtmlNode.element
              (HtmlElement.mk "title" [] [HtmlNode.text "Report"] Span.detached)]
            Span.detached),
         HtmlNode.element (HtmlElement.mk "body" [] [HtmlNode.text "Hello"] ⟨9⟩)]
        Span.detached) ∧
    root_element [] ⟨none, none⟩
      = Except.ok (HtmlElement.mk "html" []
        [HtmlNode.element (HtmlElement.mk "head" [] [] Span.detached),
         HtmlNode.element (HtmlElement.mk "body" [] [] Span.detached)]
        Span.detached) :=
  ⟨(root_element_spec
      [HtmlNode.element (HtmlElement.mk "body" [] [HtmlNode.text "Hello"] ⟨9⟩)]
      ⟨some "Report", none⟩).1
    (HtmlElement.mk "body" [] [HtmlNode.text "Hello"] ⟨9⟩) rfl rfl,
   (root_element_spec [] ⟨none, none⟩).2 (fun _ he => nomatch he)⟩

/-- C5: a top-level sequence of exactly one `html`-tagged element resolves to
that element unchanged, whatever the document metadata (so the title has no
effect and no head is synthesized). -/
theorem root_element_single_html (e : HtmlElement) (info : DocumentInfo)
    (h : e.tag = "html") :
    root_element [HtmlNode.element e] info = Except.ok e := by
  have hco : classify_output [HtmlNode.element e] = Except.ok (OutputKind.Html e) := by
    simp [classify_output, classify_scan, h]
  unfold root_element
  rw [hco]

/-- Witness for C5: a concrete user-supplied `html` element is adopted
unchanged even though the metadata supplies a title. -/
theorem root_element_single_html_witness :
    root_element [HtmlNode.element (HtmlElement.mk "html" [] [HtmlNode.text "hi"] ⟨3⟩)]
        ⟨some "Title", none⟩
      = Except.ok (HtmlElement.mk "html" [] [HtmlNode.text "hi"] ⟨3⟩) :=
  root_element_single_html _ _ rfl

/-- C7: for every content kind outside the closed dispatch set, `handle`
appends no node to the output, emits exactly one warning naming the content's
element kind, attributed to the content's span, and returns success —
whatever the recursive fragment realizer does. -/
theorem handle_unsupported (frag : FragmentRealizer) (name : String) (span : Span)
    (styles : StyleChain) :
    handle frag (Content.other name span) styles =
      Except.ok ([], [⟨span, name ++ " was ignored during HTML export"⟩]) := by
  unfold handle
  rfl

/-- C8: the depth check of fragment realization: for every nesting depth that
exceeds the fixed maximum, `html_fragment` fails with `RecursionLimitExceeded`
attributed to the triggering content's span before producing any output node;
for every depth within the maximum, the check succeeds and realization
proceeds. -/
theorem html_fragment_depth_spec (maxDepth depth : Nat)
    (realize : Unit → Except SourceDiagnostic (List HtmlNode)) (contentSpan : Span) :
    (maxDepth < depth →
      html_fragment_model maxDepth realize depth contentSpan =
        Except.error ⟨contentSpan, "RecursionLimitExceeded"⟩) ∧
    (depth ≤ maxDepth →
      html_fragment_model maxDepth realize depth contentSpan = realize ()) := by
  constructor
  · intro h
    unfold html_fragment_model
    rw [if_pos h]
  · intro h
    unfold html_fragment_model
    rw [if_neg (by omega)]

/-- Witness for C8: with a fixed maximum of 64, depth 65 fails before
realizing and depth 3 proceeds to the realizer's output. -/
theorem html_fragment_depth_spec_witness :
    html_fragment_model 64 (fun _ => Except.ok []) 65 ⟨7⟩ =
        Except.error ⟨⟨7⟩, "RecursionLimitExceeded"⟩ ∧
    html_fragment_model 64 (fun _ => Except.ok [HtmlNode.text "x"]) 3 ⟨7⟩ =
        Except.ok [HtmlNode.text "x"] :=
  ⟨(html_fragment_depth_spec 64 65 (fun _ => Except.ok []) ⟨7⟩).1 (by decide),
   (html_fragment_depth_spec 64 3 (fun _ => Except.ok [HtmlNode.text "x"]) ⟨7⟩).2
     (by decide)⟩

end TypstHtml
